import Mathlib

/-!
Shallow embedding of the request-assembly and response-streaming layer of
codex (`codex-rs/core/src/client_common.rs` and `codex-rs/core/src/terminal.rs`),
together with theorems settling the specification claims about it.

Rust machine-free data is translated to plain Lean inductives and structures;
fallible external collaborators (the XML serializer, the process environment,
the mpsc channel, the once-initialized cache) are modelled explicitly so that
the functions of the source become total Lean functions.
-/

namespace Codex

/-- Embedding of Rust `str::trim`: drop Unicode whitespace from both ends
(only ASCII whitespace matters for the claims). Used by the source only in
the pattern `s.trim().is_empty()`. -/
def rustTrim (s : String) : String :=
  String.mk (((s.data.dropWhile Char.isWhitespace).reverse.dropWhile Char.isWhitespace).reverse)

/-- Embedding of Rust `str::contains` for a string pattern. -/
def containsSubstring (haystack pat : String) : Bool :=
  decide (pat.data <:+: haystack.data)

/-- Modelled from usage: `crate::protocol::AskForApproval` (declared outside
src; the variant set is taken from the spec, which lists
untrusted/on-failure/on-request/never). Only carried through, never inspected,
by the code under verification. -/
inductive AskForApproval
  | untrusted
  | onFailure
  | onRequest
  | never
  deriving DecidableEq, Repr

/-- `crate::config_types::SandboxMode` as matched by `client_common.rs`
(variants DangerFullAccess / ReadOnly / WorkspaceWrite). -/
inductive SandboxMode
  | dangerFullAccess
  | readOnly
  | workspaceWrite
  deriving DecidableEq, Repr

/-- Modelled from usage: `crate::protocol::SandboxPolicy` as matched by the
`From<&Session> for EnvironmentContext` impl. The `WorkspaceWrite { .. }`
pattern in the source shows further fields exist; they are not read by the
code under verification and are elided here. -/
inductive SandboxPolicy
  | dangerFullAccess
  | readOnly
  | workspaceWrite (network_access : Bool)
  deriving DecidableEq, Repr

/-- `NetworkAccess` from `client_common.rs`. -/
inductive NetworkAccess
  | restricted
  | enabled
  deriving DecidableEq, Repr

/-- `EnvironmentContext` from `client_common.rs` (`cwd` is a `PathBuf` in the
source, carried opaquely; a string here). -/
structure EnvironmentContext where
  cwd : String
  approval_policy : AskForApproval
  sandbox_mode : SandboxMode
  network_access : NetworkAccess
  deriving DecidableEq, Repr

/-- Modelled from usage: the slice of `crate::codex::Session` read by the
`From<&Session>` impl (`get_cwd`, `get_approval_policy`, `get_sandbox_policy`). -/
structure Session where
  cwd : String
  approval_policy : AskForApproval
  sandbox_policy : SandboxPolicy
  deriving DecidableEq, Repr

def Session.get_cwd (s : Session) : String := s.cwd

def Session.get_approval_policy (s : Session) : AskForApproval := s.approval_policy

def Session.get_sandbox_policy (s : Session) : SandboxPolicy := s.sandbox_policy

/-- `impl From<&Session> for EnvironmentContext` from `client_common.rs`. -/
def EnvironmentContext.fromSession (sess : Session) : EnvironmentContext :=
  { cwd := sess.get_cwd
    approval_policy := sess.get_approval_policy
    sandbox_mode :=
      match sess.get_sandbox_policy with
      | SandboxPolicy.dangerFullAccess => SandboxMode.dangerFullAccess
      | SandboxPolicy.readOnly => SandboxMode.readOnly
      | SandboxPolicy.workspaceWrite _ => SandboxMode.workspaceWrite
    network_access :=
      match sess.get_sandbox_policy with
      | SandboxPolicy.dangerFullAccess => NetworkAccess.enabled
      | SandboxPolicy.readOnly => NetworkAccess.restricted
      | SandboxPolicy.workspaceWrite network_access =>
          if network_access then NetworkAccess.enabled else NetworkAccess.restricted }

/-- Modelled from usage: the `crate::models::ContentItem` variant constructed
by `client_common.rs`. -/
inductive ContentItem
  | inputText (text : String)
  deriving DecidableEq, Repr

/-- Modelled from usage: `crate::models::ResponseItem`. `message` is the
variant constructed by `get_formatted_input`; `other` stands for the remaining
variants, which the code under verification carries through opaquely. -/
inductive ResponseItem
  | message (id : Option String) (role : String) (content : List ContentItem)
  | other
  deriving DecidableEq, Repr

/-- Modelled from the spec: `crate::protocol::TokenUsage` is not in src; the
spec only passes reported usage through, so two counters suffice. -/
structure TokenUsage where
  input_tokens : Nat
  output_tokens : Nat
  deriving DecidableEq, Repr

/-- Modelled from usage: `crate::openai_tools::OpenAiTool` is carried opaquely
by `Prompt`; never inspected by the code under verification. -/
structure OpenAiTool where
  name : String
  deriving DecidableEq, Repr

/-- Modelled from the spec: the contents of the bundled `prompt.md` resource
(loaded via a compile-time constant in the source, not in src). The claims do
not depend on the text; a placeholder stands for it. -/
def BASE_INSTRUCTIONS : String := "<built-in base instructions>"

/-- Modelled from the spec: the fixed patch-tool-instructions block bundled
from the `codex_apply_patch` crate (not in src). Placeholder text. -/
def APPLY_PATCH_TOOL_INSTRUCTIONS : String := "<apply-patch tool instructions>"

/-- `USER_INSTRUCTIONS_START` from `client_common.rs`. -/
def USER_INSTRUCTIONS_START : String := "<user_instructions>\n\n"

/-- `USER_INSTRUCTIONS_END` from `client_common.rs`. -/
def USER_INSTRUCTIONS_END : String := "\n\n</user_instructions>"

/-- Modelled from usage: the two `crate::model_family::ModelFamily` flags read
by `client_common.rs`. -/
structure ModelFamily where
  needs_special_apply_patch_instructions : Bool
  supports_reasoning_summaries : Bool
  deriving DecidableEq, Repr

/-- `Prompt` from `client_common.rs`. -/
structure Prompt where
  input : List ResponseItem
  user_instructions : Option String
  store : Bool
  environment_context : Option EnvironmentContext
  tools : List OpenAiTool
  base_instructions_override : Option String
  deriving DecidableEq, Repr

/-- Embedding of Rust `Vec::<&str>::join(sep)`. -/
def joinSep (sep : String) : List String → String
  | [] => ""
  | [x] => x
  | x :: y :: rest => x ++ sep ++ joinSep sep (y :: rest)

/-- `Prompt::get_full_instructions` from `client_common.rs`. -/
def Prompt.get_full_instructions (p : Prompt) (model : ModelFamily) : String :=
  let base := p.base_instructions_override.getD BASE_INSTRUCTIONS
  let sections : List String :=
    if model.needs_special_apply_patch_instructions then
      [base, APPLY_PATCH_TOOL_INSTRUCTIONS]
    else
      [base]
  joinSep "\n" sections

/-- Outcome of running the external XML serializer on an environment context:
the buffer it wrote into (partial on failure, exactly as in the source, where
the buffer is a `String` the serializer mutates) and the error, if any. -/
structure SerOutcome where
  buffer : String
  error : Option String
  deriving DecidableEq, Repr

/-- The external `quick_xml` serializer (not part of this repository) is
modelled as a parameter: any function from a context to a buffer/error pair. -/
abbrev EnvSerializer := EnvironmentContext → SerOutcome

/-- `Prompt::get_formatted_user_instructions` from `client_common.rs`. -/
def Prompt.get_formatted_user_instructions (p : Prompt) : Option String :=
  p.user_instructions.map
    (fun ui => USER_INSTRUCTIONS_START ++ ui ++ USER_INSTRUCTIONS_END)

/-- `Prompt::get_formatted_environment_context` from `client_common.rs`:
returns `None` when no context is present; otherwise runs the serializer and
returns `Some(buffer)` — a serialization error is only logged, and the
(possibly partial) buffer is returned all the same. -/
def Prompt.get_formatted_environment_context (ser : EnvSerializer) (p : Prompt) :
    Option String :=
  p.environment_context.map (fun ec => (ser ec).buffer)

/-- The `ResponseItem::Message` with role `user` and a single `InputText`
pushed by `Prompt::get_formatted_input`. -/
def mkUserMessage (text : String) : ResponseItem :=
  ResponseItem.message Option.none "user" [ContentItem.inputText text]

/-- `Prompt::get_formatted_input` from `client_common.rs`: push the formatted
environment context (if any), then the formatted user instructions (if any),
then extend with the conversation input. -/
def Prompt.get_formatted_input (ser : EnvSerializer) (p : Prompt) :
    List ResponseItem :=
  let withEc :=
    match p.get_formatted_environment_context ser with
    | Option.some ec => [mkUserMessage ec]
    | Option.none => []
  let withUi :=
    match p.get_formatted_user_instructions with
    | Option.some ui => withEc ++ [mkUserMessage ui]
    | Option.none => withEc
  withUi ++ p.input

/-- The environment-context message block of the built input, as a
zero-or-one-element list. -/
def Prompt.ecMessages (ser : EnvSerializer) (p : Prompt) : List ResponseItem :=
  (p.get_formatted_environment_context ser).toList.map mkUserMessage

/-- The user-instructions message block of the built input, as a
zero-or-one-element list. -/
def Prompt.uiMessages (p : Prompt) : List ResponseItem :=
  p.get_formatted_user_instructions.toList.map mkUserMessage

/-- Modelled from usage: `crate::config_types::ReasoningEffort`, whose four
values are enumerated by the `From` impl in `client_common.rs`. -/
inductive ReasoningEffortConfig
  | low
  | medium
  | high
  | none
  deriving DecidableEq, Repr

/-- Modelled from usage: `crate::config_types::ReasoningSummary`, whose four
values are enumerated by the `From` impl in `client_common.rs`. -/
inductive ReasoningSummaryConfig
  | auto
  | concise
  | detailed
  | none
  deriving DecidableEq, Repr

/-- `OpenAiReasoningEffort` from `client_common.rs`. -/
inductive OpenAiReasoningEffort
  | low
  | medium
  | high
  deriving DecidableEq, Repr

/-- `OpenAiReasoningSummary` from `client_common.rs`. -/
inductive OpenAiReasoningSummary
  | auto
  | concise
  | detailed
  deriving DecidableEq, Repr

/-- `impl From<ReasoningEffortConfig> for Option<OpenAiReasoningEffort>` from
`client_common.rs`. -/
def effortFromConfig : ReasoningEffortConfig → Option OpenAiReasoningEffort
  | ReasoningEffortConfig.low => Option.some OpenAiReasoningEffort.low
  | ReasoningEffortConfig.medium => Option.some OpenAiReasoningEffort.medium
  | ReasoningEffortConfig.high => Option.some OpenAiReasoningEffort.high
  | ReasoningEffortConfig.none => Option.none

/-- `impl From<ReasoningSummaryConfig> for Option<OpenAiReasoningSummary>`
from `client_common.rs`. -/
def summaryFromConfig : ReasoningSummaryConfig → Option OpenAiReasoningSummary
  | ReasoningSummaryConfig.auto => Option.some OpenAiReasoningSummary.auto
  | ReasoningSummaryConfig.concise => Option.some OpenAiReasoningSummary.concise
  | ReasoningSummaryConfig.detailed => Option.some OpenAiReasoningSummary.detailed
  | ReasoningSummaryConfig.none => Option.none

/-- `Reasoning` from `client_common.rs`. -/
structure Reasoning where
  effort : OpenAiReasoningEffort
  summary : Option OpenAiReasoningSummary
  deriving DecidableEq, Repr

/-- `create_reasoning_param_for_request` from `client_common.rs`. -/
def create_reasoning_param_for_request (model_family : ModelFamily)
    (effort : ReasoningEffortConfig) (summary : ReasoningSummaryConfig) :
    Option Reasoning :=
  if model_family.supports_reasoning_summaries then
    match effortFromConfig effort with
    | Option.none => Option.none
    | Option.some effort =>
        Option.some { effort := effort, summary := summaryFromConfig summary }
  else
    Option.none

/-- JSON values, for the shallow model of `serde_json` serialization. -/
inductive Json
  | null
  | str (s : String)
  | bool (b : Bool)
  | num (n : Nat)
  | arr (elems : List Json)
  | obj (fields : List (String × Json))
  deriving Repr

/-- Fields of a JSON object (empty for non-objects). -/
def Json.fieldsOf : Json → List (String × Json)
  | Json.obj fields => fields
  | _ => []

/-- First value bound to a key in a serialized field list. -/
def lookupField (key : String) : List (String × Json) → Option Json
  | [] => Option.none
  | (k, v) :: rest => if k == key then Option.some v else lookupField key rest

/-- The `#[serde(rename_all = "lowercase")]` serialization of
`OpenAiReasoningEffort`. -/
def serializeOpenAiReasoningEffort : OpenAiReasoningEffort → Json
  | OpenAiReasoningEffort.low => Json.str "low"
  | OpenAiReasoningEffort.medium => Json.str "medium"
  | OpenAiReasoningEffort.high => Json.str "high"

/-- The `#[serde(rename_all = "lowercase")]` serialization of
`OpenAiReasoningSummary`. -/
def serializeOpenAiReasoningSummary : OpenAiReasoningSummary → Json
  | OpenAiReasoningSummary.auto => Json.str "auto"
  | OpenAiReasoningSummary.concise => Json.str "concise"
  | OpenAiReasoningSummary.detailed => Json.str "detailed"

/-- Serde serialization of `Reasoning` from `client_common.rs`: `effort`
always, `summary` skipped when `None` (its `skip_serializing_if`). -/
def serializeReasoning (r : Reasoning) : Json :=
  Json.obj
    (("effort", serializeOpenAiReasoningEffort r.effort) ::
      (match r.summary with
       | Option.none => []
       | Option.some s => [("summary", serializeOpenAiReasoningSummary s)]))

/-- Modelled from the spec: serde serialization of `crate::models::ResponseItem`
(declared outside src). Only the presence of the top-level request fields
matters to the claims; the item encoding itself is opaque here. -/
def serializeResponseItem : ResponseItem → Json
  | ResponseItem.message id role content =>
      Json.obj
        [("type", Json.str "message"),
         ("id", match id with | Option.none => Json.null | Option.some i => Json.str i),
         ("role", Json.str role),
         ("content",
          Json.arr (content.map (fun c =>
            match c with
            | ContentItem.inputText t =>
                Json.obj [("type", Json.str "input_text"), ("text", Json.str t)])))]
  | ResponseItem.other => Json.obj []

/-- `ResponsesApiRequest` from `client_common.rs` (`include` is a reserved
word in Lean, hence `include_items`; the source field is named `include`). -/
structure ResponsesApiRequest where
  model : String
  instructions : String
  input : List ResponseItem
  tools : List Json
  tool_choice : String
  parallel_tool_calls : Bool
  reasoning : Option Reasoning
  store : Bool
  stream : Bool
  include_items : List String
  prompt_cache_key : Option String
  deriving Repr

/-- Serde serialization of `ResponsesApiRequest`: fields in declaration order;
`reasoning` is a plain `Option` field (serialized as `null` when `None`, no
`skip_serializing_if`), while `prompt_cache_key` carries
`skip_serializing_if = "Option::is_none"` and is omitted when `None`. -/
def serializeResponsesApiRequest (r : ResponsesApiRequest) : Json :=
  Json.obj
    ([("model", Json.str r.model),
      ("instructions", Json.str r.instructions),
      ("input", Json.arr (r.input.map serializeResponseItem)),
      ("tools", Json.arr r.tools),
      ("tool_choice", Json.str r.tool_choice),
      ("parallel_tool_calls", Json.bool r.parallel_tool_calls),
      ("reasoning",
       match r.reasoning with
       | Option.none => Json.null
       | Option.some x => serializeReasoning x),
      ("store", Json.bool r.store),
      ("stream", Json.bool r.stream),
      ("include", Json.arr (r.include_items.map Json.str))] ++
     (match r.prompt_cache_key with
      | Option.none => []
      | Option.some k => [("prompt_cache_key", Json.str k)]))

/-- The process environment (`std::env::var`), modelled as a lookup map; the
source treats a missing or non-decodable variable as absent. -/
abbrev Env := String → Option String

/-- Steps 2-9 of `detect_terminal` from `terminal.rs` (everything after the
`TERM_PROGRAM` check; the Rust early `return`s become nested alternatives). -/
def detect_terminal_rest (env : Env) : String :=
  match env "WEZTERM_VERSION" with
  | Option.some v =>
      if (rustTrim v).isEmpty = false then "WezTerm/" ++ v else "WezTerm"
  | Option.none =>
    if (env "KITTY_WINDOW_ID").isSome ||
        (match env "TERM" with
         | Option.some t => containsSubstring t "kitty"
         | Option.none => false) then
      "kitty"
    else if (env "ALACRITTY_SOCKET").isSome ||
        (match env "TERM" with
         | Option.some t => t == "alacritty"
         | Option.none => false) then
      "Alacritty"
    else
      match env "KONSOLE_VERSION" with
      | Option.some v =>
          if (rustTrim v).isEmpty = false then "Konsole/" ++ v else "Konsole"
      | Option.none =>
        if (env "GNOME_TERMINAL_SCREEN").isSome then
          "gnome-terminal"
        else
          match env "VTE_VERSION" with
          | Option.some v =>
              if (rustTrim v).isEmpty = false then "VTE/" ++ v else "VTE"
          | Option.none =>
            if (env "WT_SESSION").isSome then
              "WindowsTerminal"
            else
              (env "TERM").getD "unknown"

/-- `detect_terminal` from `terminal.rs`. A set, non-blank `TERM_PROGRAM` wins,
optionally suffixed with a non-blank `TERM_PROGRAM_VERSION`; otherwise the
remaining detection steps run. -/
def detect_terminal (env : Env) : String :=
  match env "TERM_PROGRAM" with
  | Option.some tp =>
      if (rustTrim tp).isEmpty = false then
        match env "TERM_PROGRAM_VERSION" with
        | Option.some v => if (rustTrim v).isEmpty = false then tp ++ "/" ++ v else tp
        | Option.none => tp
      else
        detect_terminal_rest env
  | Option.none => detect_terminal_rest env

/-- Modelled from the spec: the process-wide `OnceLock<String>` cache
(`TERMINAL` in `terminal.rs`) as explicit state — `Option.none` before the
first call, `Option.some s` once initialized. -/
abbrev TerminalCache := Option String

/-- `user_agent` from `terminal.rs`: `TERMINAL.get_or_init(detect_terminal)`,
returning the cached value and the cache after the call. -/
def user_agent (cache : TerminalCache) (env : Env) : String × TerminalCache :=
  match cache with
  | Option.some s => (s, Option.some s)
  | Option.none =>
      let s := detect_terminal env
      (s, Option.some s)

/-- A sequence of `user_agent` calls, one per environment snapshot, threading
the cache; returns the values the calls observed. -/
def runCalls (cache : TerminalCache) : List Env → List String
  | [] => []
  | env :: rest =>
      let r := user_agent cache env
      r.1 :: runCalls r.2 rest

/-- Modelled from the spec: the `tokio::sync::mpsc` channel behind
`ResponseStream` as a FIFO buffer plus a closed flag (the bound only limits
the producer and does not affect delivery order, so it is not modelled). -/
structure Chan (α : Type) where
  buffer : List α
  closed : Bool
  deriving Repr

/-- A channel with nothing buffered and the producer side still open. -/
def Chan.empty {α : Type} : Chan α :=
  { buffer := [], closed := false }

/-- Producer enqueue: append at the back of the FIFO buffer. -/
def Chan.push {α : Type} (c : Chan α) (a : α) : Chan α :=
  { c with buffer := c.buffer ++ [a] }

/-- Producer side closed: no further items will arrive. -/
def Chan.close {α : Type} (c : Chan α) : Chan α :=
  { c with closed := true }

/-- Enqueue a whole list of items in order. -/
def Chan.pushAll {α : Type} (c : Chan α) (items : List α) : Chan α :=
  items.foldl Chan.push c

/-- Outcome of one `poll_recv`: the next item, the end-of-stream signal once
the channel is closed and drained, or a suspension while the producer is
still running. -/
inductive PollResult (α : Type)
  | ready (a : α)
  | ended
  | pending
  deriving Repr

/-- Modelled from the spec: `mpsc::Receiver::poll_recv` on the FIFO model —
yield the front of the buffer if any; otherwise end the stream if closed,
else suspend. -/
def Chan.poll_recv {α : Type} (c : Chan α) : PollResult α × Chan α :=
  match c.buffer with
  | a :: rest => (PollResult.ready a, { c with buffer := rest })
  | [] => if c.closed then (PollResult.ended, c) else (PollResult.pending, c)

/-- Modelled from the spec: `crate::error::Error` (not in src); the stream
carries it as an opaque payload. -/
structure CodexError where
  message : String
  deriving DecidableEq, Repr

/-- `ResponseEvent` from `client_common.rs`. -/
inductive ResponseEvent
  | created
  | outputItemDone (item : ResponseItem)
  | completed (response_id : String) (token_usage : Option TokenUsage)
  | outputTextDelta (delta : String)
  | reasoningSummaryDelta (delta : String)
  | reasoningContentDelta (delta : String)
  | reasoningSummaryPartAdded
  deriving DecidableEq, Repr

/-- The item type of the response stream: `Result<ResponseEvent>`. -/
abbrev ResponseStreamItem := Except CodexError ResponseEvent

/-- `ResponseStream` from `client_common.rs`: a receiver for stream items. -/
structure ResponseStream where
  rx_event : Chan ResponseStreamItem

/-- `Stream::poll_next` for `ResponseStream` from `client_common.rs`: it
delegates to `rx_event.poll_recv`. -/
def ResponseStream.poll_next (s : ResponseStream) :
    PollResult ResponseStreamItem × ResponseStream :=
  let r := s.rx_event.poll_recv
  (r.1, { rx_event := r.2 })

/-- Poll the stream `n` times in sequence, collecting the outcomes. -/
def ResponseStream.pollN : ResponseStream → Nat → List (PollResult ResponseStreamItem)
  | _, 0 => []
  | s, Nat.succ n =>
      let r := s.poll_next
      r.1 :: ResponseStream.pollN r.2 n

/-- A sample environment context for concrete evaluations. -/
def ecSample : EnvironmentContext :=
  { cwd := "/tmp/project"
    approval_policy := AskForApproval.never
    sandbox_mode := SandboxMode.readOnly
    network_access := NetworkAccess.restricted }

/-- A serializer that always fails, leaving an empty partial buffer. -/
def failingSer : EnvSerializer :=
  fun _ => { buffer := "", error := Option.some "serialization error" }

/-- A serializer that always succeeds with a fixed rendering. -/
def okSer : EnvSerializer :=
  fun _ => { buffer := "<environment_context/>", error := Option.none }

/-- A concrete prompt with environment context, user instructions and one
history item. -/
def promptC2 : Prompt :=
  { input := [ResponseItem.other]
    user_instructions := Option.some "be careful"
    store := true
    environment_context := Option.some ecSample
    tools := []
    base_instructions_override := Option.none }

/-- A concrete prompt whose user instructions are present but empty. -/
def promptC6 : Prompt :=
  { input := []
    user_instructions := Option.some ""
    store := false
    environment_context := Option.none
    tools := []
    base_instructions_override := Option.none }

/-- A concrete request with no reasoning spec and no prompt cache key. -/
def reqC7 : ResponsesApiRequest :=
  { model := "gpt-x"
    instructions := "inst"
    input := []
    tools := []
    tool_choice := "auto"
    parallel_tool_calls := false
    reasoning := Option.none
    store := false
    stream := true
    include_items := []
    prompt_cache_key := Option.none }

/-- The conjunction of non-matching conditions for detection steps 1-8 of
`detect_terminal`: `TERM_PROGRAM` unset or blank, the WezTerm / kitty /
Alacritty / Konsole / gnome-terminal / VTE / WindowsTerminal probes all
unset, `TERM` neither containing "kitty" nor equal to "alacritty". -/
def noDetectionStepMatches (env : Env) : Prop :=
  (match env "TERM_PROGRAM" with
   | Option.some tp => (rustTrim tp).isEmpty = true
   | Option.none => True) ∧
  env "WEZTERM_VERSION" = Option.none ∧
  env "KITTY_WINDOW_ID" = Option.none ∧
  (match env "TERM" with
   | Option.some t => containsSubstring t "kitty" = false
   | Option.none => True) ∧
  env "ALACRITTY_SOCKET" = Option.none ∧
  (match env "TERM" with
   | Option.some t => t ≠ "alacritty"
   | Option.none => True) ∧
  env "KONSOLE_VERSION" = Option.none ∧
  env "GNOME_TERMINAL_SCREEN" = Option.none ∧
  env "VTE_VERSION" = Option.none ∧
  env "WT_SESSION" = Option.none

/-- The environment of the iTerm example in the specification. -/
def envIterm : Env := fun k =>
  if k == "TERM_PROGRAM" then Option.some "iTerm.app"
  else if k == "TERM_PROGRAM_VERSION" then Option.some "3.5.0"
  else Option.none

/-- The environment of the bare-`TERM` example in the specification. -/
def envXterm : Env := fun k =>
  if k == "TERM" then Option.some "xterm-256color" else Option.none

theorem get_formatted_input_eq (ser : EnvSerializer) (p : Prompt) :
    p.get_formatted_input ser = p.ecMessages ser ++ p.uiMessages ++ p.input := by
  unfold Prompt.get_formatted_input Prompt.ecMessages Prompt.uiMessages
  cases p.get_formatted_environment_context ser <;>
    cases p.get_formatted_user_instructions <;>
      simp [Option.toList]

/-- C1: for every prompt (and any behavior of the external serializer), the
built input sequence is exactly the environment-context message block (one
message iff a context is present), then the user-instructions message block
(one message iff instructions are present), then the conversation history
verbatim in its original order — never reordered, deduplicated or truncated. -/
theorem get_formatted_input_ordering (ser : EnvSerializer) (p : Prompt) :
    p.get_formatted_input ser = p.ecMessages ser ++ p.uiMessages ++ p.input ∧
    p.ecMessages ser =
      (p.environment_context.map (fun ec => mkUserMessage (ser ec).buffer)).toList ∧
    p.uiMessages =
      (p.user_instructions.map (fun ui =>
        mkUserMessage (USER_INSTRUCTIONS_START ++ ui ++ USER_INSTRUCTIONS_END))).toList := by
  refine ⟨get_formatted_input_eq ser p, ?_, ?_⟩
  · cases h : p.environment_context <;>
      simp [Prompt.ecMessages, Prompt.get_formatted_environment_context, h]
  · cases h : p.user_instructions <;>
      simp [Prompt.uiMessages, Prompt.get_formatted_user_instructions, h]

/-- C2 counterexample: with a failing serializer, the environment-context
block is not omitted — the built sequence is not just the user-instructions
message plus history, refuting the claim at a concrete prompt. -/
theorem env_context_error_block_not_omitted :
    (failingSer ecSample).error.isSome = true ∧
    promptC2.get_formatted_input failingSer ≠ promptC2.uiMessages ++ promptC2.input := by
  exact ⟨rfl, by decide⟩

/-- C2 amended: when the serializer fails, the error is swallowed (never
propagated) and the built sequence still starts with an environment-context
message carrying the partially written buffer, followed by the
user-instructions message block and the history unchanged. -/
theorem env_context_error_kept_with_buffer (ser : EnvSerializer) (p : Prompt)
    (ec : EnvironmentContext) (hec : p.environment_context = Option.some ec)
    (herr : (ser ec).error.isSome = true) :
    p.get_formatted_input ser =
      mkUserMessage (ser ec).buffer :: (p.uiMessages ++ p.input) := by
  rw [get_formatted_input_eq]
  simp [Prompt.ecMessages, Prompt.get_formatted_environment_context, hec]

/-- Witness for the amended C2 at a concrete failing serializer and prompt. -/
theorem env_context_error_kept_with_buffer_witness :
    promptC2.get_formatted_input failingSer =
      mkUserMessage (failingSer ecSample).buffer ::
        (promptC2.uiMessages ++ promptC2.input) :=
  env_context_error_kept_with_buffer failingSer promptC2 ecSample rfl rfl

/-- C3: for every session, the derived network access is `enabled` iff the
sandbox policy is danger-full-access or workspace-write with the network flag
set; all other combinations give `restricted`; and the derived sandbox mode
mirrors the head of the policy. -/
theorem network_access_enabled_iff (sess : Session) :
    ((EnvironmentContext.fromSession sess).network_access = NetworkAccess.enabled ↔
      sess.sandbox_policy = SandboxPolicy.dangerFullAccess ∨
        sess.sandbox_policy = SandboxPolicy.workspaceWrite true) ∧
    ((EnvironmentContext.fromSession sess).network_access = NetworkAccess.restricted ↔
      sess.sandbox_policy = SandboxPolicy.readOnly ∨
        sess.sandbox_policy = SandboxPolicy.workspaceWrite false) ∧
    ((EnvironmentContext.fromSession sess).sandbox_mode = SandboxMode.dangerFullAccess ↔
      sess.sandbox_policy = SandboxPolicy.dangerFullAccess) ∧
    ((EnvironmentContext.fromSession sess).sandbox_mode = SandboxMode.workspaceWrite ↔
      ∃ b, sess.sandbox_policy = SandboxPolicy.workspaceWrite b) := by
  obtain ⟨cwd, ap, pol⟩ := sess
  cases pol with
  | dangerFullAccess =>
      simp [EnvironmentContext.fromSession, Session.get_sandbox_policy]
  | readOnly =>
      simp [EnvironmentContext.fromSession, Session.get_sandbox_policy]
  | workspaceWrite b =>
      cases b <;>
        simp [EnvironmentContext.fromSession, Session.get_sandbox_policy]

/-- Witness for C3 at a concrete session with network-enabled workspace-write. -/
theorem network_access_enabled_iff_witness :
    (EnvironmentContext.fromSession
        { cwd := "/w"
          approval_policy := AskForApproval.onRequest
          sandbox_policy := SandboxPolicy.workspaceWrite true }).network_access =
      NetworkAccess.enabled :=
  (network_access_enabled_iff
    { cwd := "/w"
      approval_policy := AskForApproval.onRequest
      sandbox_policy := SandboxPolicy.workspaceWrite true }).1.2 (Or.inr rfl)

/-- C4: the reasoning selector yields nothing when the family lacks reasoning
summaries; nothing when the configured effort is "none" regardless of the
summary; otherwise a spec with the mapped effort and the mapped summary, and
the mapped summary is absent exactly when the summary configuration is
"none". -/
theorem create_reasoning_param_spec (mf : ModelFamily)
    (e : ReasoningEffortConfig) (s : ReasoningSummaryConfig) :
    (mf.supports_reasoning_summaries = false →
      create_reasoning_param_for_request mf e s = Option.none) ∧
    (e = ReasoningEffortConfig.none →
      create_reasoning_param_for_request mf e s = Option.none) ∧
    (mf.supports_reasoning_summaries = true → e ≠ ReasoningEffortConfig.none →
      ∃ oe, effortFromConfig e = Option.some oe ∧
        create_reasoning_param_for_request mf e s =
          Option.some { effort := oe, summary := summaryFromConfig s }) ∧
    (summaryFromConfig s = Option.none ↔ s = ReasoningSummaryConfig.none) := by
  refine ⟨?_, ?_, ?_, ?_⟩
  · intro h
    simp [create_reasoning_param_for_request, h]
  · intro h
    subst h
    cases hs : mf.supports_reasoning_summaries <;>
      simp [create_reasoning_param_for_request, effortFromConfig, hs]
  · intro hs hne
    cases e with
    | low => exact ⟨OpenAiReasoningEffort.low, rfl,
        by simp [create_reasoning_param_for_request, effortFromConfig, hs]⟩
    | medium => exact ⟨OpenAiReasoningEffort.medium, rfl,
        by simp [create_reasoning_param_for_request, effortFromConfig, hs]⟩
    | high => exact ⟨OpenAiReasoningEffort.high, rfl,
        by simp [create_reasoning_param_for_request, effortFromConfig, hs]⟩
    | none => exact absurd rfl hne
  · cases s <;> simp [summaryFromConfig]

/-- Witness for C4: an unsupported family yields nothing; a supported family
with effort "none" yields nothing; a supported family with low effort and
summary "none" yields a spec with summary absent. -/
theorem create_reasoning_param_spec_witness :
    create_reasoning_param_for_request
        { needs_special_apply_patch_instructions := false
          supports_reasoning_summaries := false }
        ReasoningEffortConfig.low ReasoningSummaryConfig.auto = Option.none ∧
    create_reasoning_param_for_request
        { needs_special_apply_patch_instructions := false
          supports_reasoning_summaries := true }
        ReasoningEffortConfig.none ReasoningSummaryConfig.auto = Option.none ∧
    create_reasoning_param_for_request
        { needs_special_apply_patch_instructions := false
          supports_reasoning_summaries := true }
        ReasoningEffortConfig.low ReasoningSummaryConfig.none =
      Option.some { effort := OpenAiReasoningEffort.low, summary := Option.none } := by
  refine ⟨?_, ?_, ?_⟩
  · exact (create_reasoning_param_spec
      { needs_special_apply_patch_instructions := false
        supports_reasoning_summaries := false }
      ReasoningEffortConfig.low ReasoningSummaryConfig.auto).1 rfl
  · exact (create_reasoning_param_spec
      { needs_special_apply_patch_instructions := false
        supports_reasoning_summaries := true }
      ReasoningEffortConfig.none ReasoningSummaryConfig.auto).2.1 rfl
  · obtain ⟨oe, hoe, hreq⟩ := (create_reasoning_param_spec
      { needs_special_apply_patch_instructions := false
        supports_reasoning_summaries := true }
      ReasoningEffortConfig.low ReasoningSummaryConfig.none).2.2.1 rfl (by decide)
    have hoe2 : oe = OpenAiReasoningEffort.low := by
      simpa [effortFromConfig] using hoe.symm
    rw [hreq, hoe2]
    simp [summaryFromConfig]

/-- C5: instruction composition is the pure function that starts from the
override if present (else the built-in base text) and appends the fixed
patch-instructions block, separated by exactly one newline, iff the model
family has the capability flag set. -/
theorem get_full_instructions_spec (p : Prompt) (mf : ModelFamily) :
    p.get_full_instructions mf =
      (if mf.needs_special_apply_patch_instructions then
        p.base_instructions_override.getD BASE_INSTRUCTIONS ++ "\n" ++
          APPLY_PATCH_TOOL_INSTRUCTIONS
      else
        p.base_instructions_override.getD BASE_INSTRUCTIONS) := by
  cases h : mf.needs_special_apply_patch_instructions <;>
    simp [Prompt.get_full_instructions, joinSep, h]

/-- C6 counterexample: a prompt whose user instructions are present but empty
still gets a user-instructions message (the empty text wrapped in the
markers), refuting "present and non-empty". -/
theorem empty_user_instructions_message_cex :
    promptC6.user_instructions = Option.some "" ∧
    promptC6.get_formatted_input okSer =
      [mkUserMessage (USER_INSTRUCTIONS_START ++ "" ++ USER_INSTRUCTIONS_END)] :=
  ⟨rfl, rfl⟩

/-- C6 amended: the built input contains a user-instructions message iff
`user_instructions` is present (even when empty), and that message is exactly
the instructions text wrapped in the fixed start/end markers, placed between
the environment-context block and the history. -/
theorem user_instructions_message_iff_present (ser : EnvSerializer) (p : Prompt) :
    p.get_formatted_input ser =
      p.ecMessages ser ++
        (p.user_instructions.map (fun ui =>
          mkUserMessage (USER_INSTRUCTIONS_START ++ ui ++ USER_INSTRUCTIONS_END))).toList ++
        p.input := by
  rw [get_formatted_input_eq]
  cases h : p.user_instructions <;>
    simp [Prompt.uiMessages, Prompt.get_formatted_user_instructions, h]

/-- C7 counterexample: with no reasoning spec selected, the serialized request
still contains a `reasoning` field bound to `null` — the field is not
omitted. -/
theorem reasoning_field_serialized_null_cex :
    reqC7.reasoning = Option.none ∧
    lookupField "reasoning" (Json.fieldsOf (serializeResponsesApiRequest reqC7)) =
      Option.some Json.null :=
  ⟨rfl, rfl⟩

/-- C7 amended: in the serialized request the `reasoning` field is always
present — `null` when no spec was selected, the serialized spec otherwise;
`prompt_cache_key` is omitted exactly when absent; and inside a present
reasoning block the `summary` field is omitted exactly when no summary was
selected. -/
theorem request_optional_field_presence (r : ResponsesApiRequest) (x : Reasoning) :
    lookupField "reasoning" (Json.fieldsOf (serializeResponsesApiRequest r)) =
      Option.some
        (match r.reasoning with
         | Option.none => Json.null
         | Option.some v => serializeReasoning v) ∧
    lookupField "prompt_cache_key" (Json.fieldsOf (serializeResponsesApiRequest r)) =
      r.prompt_cache_key.map Json.str ∧
    lookupField "summary" (Json.fieldsOf (serializeReasoning x)) =
      x.summary.map serializeOpenAiReasoningSummary := by
  obtain ⟨m, i, inp, tl, tc, ptc, rs, st, sm, inc, pck⟩ := r
  obtain ⟨eff, summ⟩ := x
  refine ⟨?_, ?_, ?_⟩
  · cases rs <;> cases pck <;> rfl
  · cases rs <;> cases pck <;> rfl
  · cases summ <;> rfl

theorem detect_terminal_rest_fallback (env : Env) (h : noDetectionStepMatches env) :
    detect_terminal_rest env = (env "TERM").getD "unknown" := by
  obtain ⟨h1, h2, h3, h4, h5, h6, h7, h8, h9, h10⟩ := h
  unfold detect_terminal_rest
  rw [h2, h7, h9]
  cases ht : env "TERM" with
  | none =>
      simp [h3, h5, h8, h10, ht]
  | some t =>
      simp only [ht] at h4 h6
      have h6b : (t == "alacritty") = false := beq_eq_false_iff_ne.mpr h6
      simp [h3, h4, h5, h6b, h8, h10, ht]

/-- C8: terminal identity detection is first-match-wins — a set, non-blank
`TERM_PROGRAM` yields that value, suffixed with `/<TERM_PROGRAM_VERSION>` iff
that variable is set and non-blank; and when no detection step matches, the
result is the value of `TERM`, or "unknown" if `TERM` is unset. -/
theorem detect_terminal_spec :
    (∀ env : Env, ∀ tp, env "TERM_PROGRAM" = Option.some tp →
      (rustTrim tp).isEmpty = false →
      detect_terminal env =
        (match env "TERM_PROGRAM_VERSION" with
         | Option.some v =>
             if (rustTrim v).isEmpty = false then tp ++ "/" ++ v else tp
         | Option.none => tp)) ∧
    (∀ env : Env, noDetectionStepMatches env →
      detect_terminal env = (env "TERM").getD "unknown") := by
  constructor
  · intro env tp htp hblank
    unfold detect_terminal
    rw [htp]
    simp [hblank]
  · intro env h
    have hrest := detect_terminal_rest_fallback env h
    obtain ⟨h1, -, -, -, -, -, -, -, -, -⟩ := h
    unfold detect_terminal
    cases htp : env "TERM_PROGRAM" with
    | none => exact hrest
    | some tp =>
        simp only [htp] at h1
        simp [h1, hrest]

/-- Witness for C8 at the two examples given in the specification. -/
theorem detect_terminal_spec_witness :
    detect_terminal envIterm = "iTerm.app/3.5.0" ∧
    detect_terminal envXterm = "xterm-256color" := by
  constructor
  · have h := detect_terminal_spec.1 envIterm "iTerm.app" rfl (by decide)
    rw [h]
    rfl
  · have h := detect_terminal_spec.2 envXterm
      ⟨trivial, rfl, rfl,
       (show containsSubstring "xterm-256color" "kitty" = false by decide), rfl,
       (show ("xterm-256color" : String) ≠ "alacritty" by decide),
       rfl, rfl, rfl, rfl⟩
    rw [h]
    rfl

theorem runCalls_cached (s : String) (envs : List Env) :
    runCalls (Option.some s) envs = List.replicate envs.length s := by
  induction envs with
  | nil => rfl
  | cons e rest ih => simp [runCalls, user_agent, ih, List.replicate_succ]

/-- C9: the client-identity value is computed once and memoized — starting
from an uninitialized cache, a first call under environment `env0` followed by
any number of further calls under arbitrary (possibly changed) environments
returns `detect_terminal env0` every single time. -/
theorem user_agent_memoized (env0 : Env) (envs : List Env) :
    runCalls Option.none (env0 :: envs) =
      List.replicate (envs.length + 1) (detect_terminal env0) := by
  simp [runCalls, user_agent, runCalls_cached, List.replicate_succ]

theorem pushAll_buffer {α : Type} (items : List α) (c : Chan α) :
    (c.pushAll items).buffer = c.buffer ++ items ∧
    (c.pushAll items).closed = c.closed := by
  induction items generalizing c with
  | nil => simp [Chan.pushAll]
  | cons a rest ih =>
      refine ⟨?_, ?_⟩
      · show (Chan.pushAll (c.push a) rest).buffer = c.buffer ++ a :: rest
        rw [(ih (c.push a)).1]
        simp [Chan.push]
      · show (Chan.pushAll (c.push a) rest).closed = c.closed
        rw [(ih (c.push a)).2]
        rfl

theorem pollN_closed (items : List ResponseStreamItem) :
    ResponseStream.pollN { rx_event := { buffer := items, closed := true } }
        (items.length + 1) =
      items.map PollResult.ready ++ [PollResult.ended] := by
  induction items with
  | nil => rfl
  | cons a rest ih =>
      show PollResult.ready a ::
          ResponseStream.pollN { rx_event := { buffer := rest, closed := true } }
            (rest.length + 1) =
        PollResult.ready a :: (List.map PollResult.ready rest ++ [PollResult.ended])
      rw [ih]

/-- C10: for every list of N ≥ 0 items pushed by the producer and then a close
of the channel, polling the response stream N+1 times delivers exactly those
items, in enqueue order, followed by the stream-ended signal — including the
empty case, where the very first poll ends the stream. -/
theorem response_stream_order_preserved (items : List ResponseStreamItem) :
    ResponseStream.pollN { rx_event := (Chan.empty.pushAll items).close }
        (items.length + 1) =
      items.map PollResult.ready ++ [PollResult.ended] := by
  have h1 : (Chan.empty.pushAll items).buffer = items := by
    have h := (pushAll_buffer items (Chan.empty (α := ResponseStreamItem))).1
    simpa [Chan.empty] using h
  have hclose : (Chan.empty.pushAll items).close =
      { buffer := items, closed := true } := by
    simp [Chan.close, h1]
  rw [hclose]
  exact pollN_closed items

end Codex
